import Mathlib

/-!
Verification of the relaxed-input normalization and lenient-validation
pipeline in `bib_models/util.py`.

The Python functions operate on deserialized JSON/YAML trees: values are
strings, numbers, booleans, `None`, lists, or string-keyed dicts.  We embed
such trees as the inductive type `Val`, with dicts as association lists in
insertion order (Python dicts preserve insertion order and have unique
keys; all operations below use first-occurrence semantics, which agrees
with Python on every dict Python can actually build).

Functions that can raise in Python are embedded in `Except PyErr`; the
top-level canonicalizer `normalize_relaxed`, which mutates its argument in
place, is embedded in state-passing style, returning the (possibly
partially mutated) tree together with the exception, if one was raised.
-/

/-- A Python exception, as far as this module can observe it. -/
inductive PyErr where
  /-- `AttributeError`, e.g. calling `.get` on a non-dict. -/
  | attributeError
  /-- `TypeError`, e.g. iterating a non-iterable, the explicit raises in
  `normalize_version` / `normalize_contact`, or `dict()` receiving the
  same keyword twice. -/
  | typeError
  /-- `pydantic.ValidationError`, carrying its list of error dicts. -/
  | validationError (errs : List String)
deriving DecidableEq, Repr

/-- A deserialized JSON/YAML value as manipulated by `bib_models/util.py`. -/
inductive Val where
  | vnone
  | vbool (b : Bool)
  | vint (n : Int)
  | vstr (s : String)
  | vlist (xs : List Val)
  | vdict (m : List (String × Val))
deriving Repr

mutual

/-- Decidable equality on `Val` (the derive handler does not support the
nested occurrences of `Val` under `List`). -/
def Val.decEq : (a b : Val) → Decidable (a = b)
  | .vnone, .vnone => isTrue rfl
  | .vnone, .vbool _ => isFalse (fun h => Val.noConfusion h)
  | .vnone, .vint _ => isFalse (fun h => Val.noConfusion h)
  | .vnone, .vstr _ => isFalse (fun h => Val.noConfusion h)
  | .vnone, .vlist _ => isFalse (fun h => Val.noConfusion h)
  | .vnone, .vdict _ => isFalse (fun h => Val.noConfusion h)
  | .vbool _, .vnone => isFalse (fun h => Val.noConfusion h)
  | .vbool x, .vbool y =>
      if h : x = y then isTrue (by rw [h]) else
        isFalse (fun hh => by cases hh; exact h rfl)
  | .vbool _, .vint _ => isFalse (fun h => Val.noConfusion h)
  | .vbool _, .vstr _ => isFalse (fun h => Val.noConfusion h)
  | .vbool _, .vlist _ => isFalse (fun h => Val.noConfusion h)
  | .vbool _, .vdict _ => isFalse (fun h => Val.noConfusion h)
  | .vint _, .vnone => isFalse (fun h => Val.noConfusion h)
  | .vint _, .vbool _ => isFalse (fun h => Val.noConfusion h)
  | .vint x, .vint y =>
      if h : x = y then isTrue (by rw [h]) else
        isFalse (fun hh => by cases hh; exact h rfl)
  | .vint _, .vstr _ => isFalse (fun h => Val.noConfusion h)
  | .vint _, .vlist _ => isFalse (fun h => Val.noConfusion h)
  | .vint _, .vdict _ => isFalse (fun h => Val.noConfusion h)
  | .vstr _, .vnone => isFalse (fun h => Val.noConfusion h)
  | .vstr _, .vbool _ => isFalse (fun h => Val.noConfusion h)
  | .vstr _, .vint _ => isFalse (fun h => Val.noConfusion h)
  | .vstr x, .vstr y =>
      if h : x = y then isTrue (by rw [h]) else
        isFalse (fun hh => by cases hh; exact h rfl)
  | .vstr _, .vlist _ => isFalse (fun h => Val.noConfusion h)
  | .vstr _, .vdict _ => isFalse (fun h => Val.noConfusion h)
  | .vlist _, .vnone => isFalse (fun h => Val.noConfusion h)
  | .vlist _, .vbool _ => isFalse (fun h => Val.noConfusion h)
  | .vlist _, .vint _ => isFalse (fun h => Val.noConfusion h)
  | .vlist _, .vstr _ => isFalse (fun h => Val.noConfusion h)
  | .vlist xs, .vlist ys =>
      match Val.decEqList xs ys with
      | isTrue h => isTrue (by rw [h])
      | isFalse h => isFalse (fun hh => by cases hh; exact h rfl)
  | .vlist _, .vdict _ => isFalse (fun h => Val.noConfusion h)
  | .vdict _, .vnone => isFalse (fun h => Val.noConfusion h)
  | .vdict _, .vbool _ => isFalse (fun h => Val.noConfusion h)
  | .vdict _, .vint _ => isFalse (fun h => Val.noConfusion h)
  | .vdict _, .vstr _ => isFalse (fun h => Val.noConfusion h)
  | .vdict _, .vlist _ => isFalse (fun h => Val.noConfusion h)
  | .vdict m, .vdict n =>
      match Val.decEqPairs m n with
      | isTrue h => isTrue (by rw [h])
      | isFalse h => isFalse (fun hh => by cases hh; exact h rfl)

/-- Decidable equality on lists of `Val`. -/
def Val.decEqList : (xs ys : List Val) → Decidable (xs = ys)
  | [], [] => isTrue rfl
  | [], _ :: _ => isFalse (fun h => List.noConfusion h)
  | _ :: _, [] => isFalse (fun h => List.noConfusion h)
  | x :: xs, y :: ys =>
      match Val.decEq x y with
      | isFalse h => isFalse (fun hh => by cases hh; exact h rfl)
      | isTrue h1 =>
          match Val.decEqList xs ys with
          | isTrue h2 => isTrue (by rw [h1, h2])
          | isFalse h2 => isFalse (fun hh => by cases hh; exact h2 rfl)

/-- Decidable equality on dict entry lists. -/
def Val.decEqPairs : (m n : List (String × Val)) → Decidable (m = n)
  | [], [] => isTrue rfl
  | [], _ :: _ => isFalse (fun h => List.noConfusion h)
  | _ :: _, [] => isFalse (fun h => List.noConfusion h)
  | (k1, v1) :: m, (k2, v2) :: n =>
      if hk : k1 = k2 then
        match Val.decEq v1 v2 with
        | isFalse h => isFalse (fun hh => by cases hh; exact h rfl)
        | isTrue h1 =>
            match Val.decEqPairs m n with
            | isTrue h2 => isTrue (by rw [hk, h1, h2])
            | isFalse h2 => isFalse (fun hh => by cases hh; exact h2 rfl)
      else isFalse (fun hh => by cases hh; exact hk rfl)

end

instance : DecidableEq Val := Val.decEq

/-- Python truthiness for the values of `Val`. -/
def truthy : Val → Bool
  | .vnone => false
  | .vbool b => b
  | .vint n => n != 0
  | .vstr s => !s.isEmpty
  | .vlist xs => !xs.isEmpty
  | .vdict m => !m.isEmpty

mutual

/-- Python `repr` of a value (modelled for strings without quote escaping,
which never affects the claims here). -/
def pyRepr : Val → String
  | .vnone => "None"
  | .vbool true => "True"
  | .vbool false => "False"
  | .vint n => toString n
  | .vstr s => "\x27" ++ s ++ "\x27"
  | .vlist xs => "[" ++ pyReprItems xs ++ "]"
  | .vdict m => "\x7b" ++ pyReprPairs m ++ "\x7d"

/-- Comma-separated `repr`s of list items. -/
def pyReprItems : List Val → String
  | [] => ""
  | [x] => pyRepr x
  | x :: y :: rest => pyRepr x ++ ", " ++ pyReprItems (y :: rest)

/-- Comma-separated `repr`s of dict entries. -/
def pyReprPairs : List (String × Val) → String
  | [] => ""
  | [(k, v)] => "\x27" ++ k ++ "\x27: " ++ pyRepr v
  | (k, v) :: p :: rest =>
      "\x27" ++ k ++ "\x27: " ++ pyRepr v ++ ", " ++ pyReprPairs (p :: rest)

end

/-- Python `str` of a value. -/
def pyStr : Val → String
  | .vstr s => s
  | v => pyRepr v

/-- Python `k in d` for a dict rendered as an association list. -/
def hasKey (m : List (String × Val)) (k : String) : Bool :=
  (m.lookup k).isSome

/-- Python `d[k] = v`: replace the value at an existing key (keeping its
position), otherwise append the new entry at the end. -/
def dset : List (String × Val) → String → Val → List (String × Val)
  | [], k, v => [(k, v)]
  | (k1, v1) :: rest, k, v =>
      if k1 = k then (k, v) :: rest else (k1, v1) :: dset rest k v

/-- Python `x.get(k, dflt)`: raises `AttributeError` when `x` is not
a dict. -/
def pyGet (x : Val) (k : String) (dflt : Val) : Except PyErr Val :=
  match x with
  | .vdict m => .ok ((m.lookup k).getD dflt)
  | _ => .error .attributeError

/-- Whether a value is a Python dict (`isinstance(x, dict)`). -/
def isDict : Val → Bool
  | .vdict _ => true
  | _ => false

/-- Whether a value is a Python string (`isinstance(x, str)`). -/
def isStr : Val → Bool
  | .vstr _ => true
  | _ => false

/-- Modelled from the spec: `common.util.as_list` (imported by
`bib_models/util.py` but not part of the sources) wraps a single value
into a one-element list and returns sequences unchanged ("wrapped into a
list if given as a single value", spec section 4.3). -/
def as_list : Val → List Val
  | .vlist xs => xs
  | v => [v]

/-- Python `for x in v`: iterating a list yields its items, a string its
characters, a dict its keys; other values raise `TypeError`. -/
def pyIter : Val → Except PyErr (List Val)
  | .vlist xs => .ok xs
  | .vstr s => .ok (s.data.map (fun c => .vstr (String.singleton c)))
  | .vdict m => .ok (m.map (fun p => .vstr p.1))
  | _ => .error .typeError

/-- `to_plain_string` from `bib_models/util.py`. -/
def to_plain_string (raw : Val) : Except PyErr Val :=
  match raw with
  | .vstr _ => .ok raw
  | .vdict _ =>
      match pyGet raw "content" .vnone with
      | .error e => .error e
      | .ok content =>
          if truthy content then .ok (.vstr (pyStr content))
          else .ok (.vstr (pyStr raw))
  | _ => .ok (.vstr (pyStr raw))

/-- `normalize_role` from `bib_models/util.py`. -/
def normalize_role (raw : Val) : Except PyErr Val :=
  match raw with
  | .vstr s => .ok (.vdict [("type", .vstr s)])
  | .vdict m =>
      if hasKey m "type" || hasKey m "description" then .ok raw
      else .ok (.vdict [("description", .vstr (pyStr raw))])
  | _ => .ok (.vdict [("description", .vstr (pyStr raw))])

/-- `to_formatted_string` from `bib_models/util.py`. -/
def to_formatted_string (raw : Val) : Except PyErr Val :=
  match raw with
  | .vstr s => .ok (.vdict [("content", .vstr s)])
  | .vdict _ =>
      match pyGet raw "content" .vnone with
      | .error e => .error e
      | .ok c =>
          match c with
          | .vstr _ => .ok raw
          | _ => .ok (.vdict [("content", .vstr (pyStr raw))])
  | _ => .ok (.vdict [("content", .vstr (pyStr raw))])

/-- `ensure_formatted_string_content` from `bib_models/util.py`.
The body is `dict(content='', **fname)`, and `dict(...)` raises
`TypeError` ("got multiple values for keyword argument") when `fname`
itself contains a `content` key, which happens exactly when `content` is
present but falsy. -/
def ensure_formatted_string_content (fname : Val) : Except PyErr Val :=
  match pyGet fname "content" .vnone with
  | .error e => .error e
  | .ok c =>
      if truthy c then .ok fname
      else
        match fname with
        | .vdict m =>
            if hasKey m "content" then .error .typeError
            else .ok (.vdict (("content", .vstr "") :: m))
        | _ => .error .attributeError

/-- `normalize_version` from `bib_models/util.py`. -/
def normalize_version (raw : Val) : Except PyErr Val :=
  match raw with
  | .vstr s => .ok (.vdict [("draft", .vstr s)])
  | _ => .error .typeError

/-- The trailing part of `normalize_contact` (after the `type`/`value`
branch falls through): the `city`/`country`, string-`phone`, and
pass-through cases. -/
def contactRest (m : List (String × Val)) : Option Val :=
  if hasKey m "city" || hasKey m "country" then
    some (.vdict [("address", .vdict m)])
  else
    match m.lookup "phone" with
    | some (.vstr s) => some (.vdict [("phone", .vdict [("content", .vstr s)])])
    | _ => some (.vdict m)

/-- `normalize_contact` on a dict argument; `none` models the `return
None` of the falsy-`value` branch. -/
def normalize_contact_dict (m : List (String × Val)) : Option Val :=
  let t := (m.lookup "type").getD .vnone
  if truthy t && hasKey m "value" then
    let v := (m.lookup "value").getD .vnone
    if truthy v then
      if t = .vstr "email" then some (.vdict [("email", v)])
      else if t = .vstr "uri" ∨ t = .vstr "url" then some (.vdict [("uri", v)])
      else if t = .vstr "phone" then
        some (.vdict [("phone", .vdict [("content", v)])])
      else contactRest m
    else none
  else contactRest m

/-- `normalize_contact` from `bib_models/util.py`; raises `TypeError` on
non-dict input. -/
def normalize_contact (raw : Val) : Except PyErr (Option Val) :=
  match raw with
  | .vdict m => .ok (normalize_contact_dict m)
  | _ => .error .typeError

/-- `relaton.models.bibdata.DocID`: attributes as they are read by
`get_primary_docid` (`id`, `type`, `scope` optional strings, `primary` an
optional boolean). -/
structure DocID where
  id : Option String
  type : Option String
  scope : Option String
  primary : Option Bool
deriving DecidableEq, Repr

/-- The filter predicate of `get_primary_docid`:
`docid.primary is True and docid.id is not None and docid.type is not None
and docid.scope is None`. -/
def primaryFilter (d : DocID) : Bool :=
  d.primary == some true && d.id != none && d.type != none && d.scope == none

/-- The dedup key of `get_primary_docid`: `frozenset([id.id, id.type])`,
an unordered set of the two attribute values. -/
def docidKey (d : DocID) : Finset (Option String) :=
  {d.id, d.type}

/-- `get_primary_docid` from `bib_models/util.py`.  The first component
records whether the `log.warn` call fired; the second is the returned
identifier (`primary_docids[0]`, or `None` on `IndexError`). -/
def get_primary_docid (raw_ids : List DocID) : Bool × Option DocID :=
  let primary_docids := raw_ids.filter primaryFilter
  let deduped := (primary_docids.map docidKey).toFinset
  (decide (deduped.card ≠ 1), primary_docids.head?)

/-- The contact comprehension inside `normalize_relaxed`: keep only dict
entries, map `normalize_contact` over them, drop `None` results. -/
def normContactList (contacts : List Val) : Except PyErr (List Val) := do
  let opts ← (contacts.filter isDict).mapM normalize_contact
  return opts.filterMap id

/-- The guarded contact-adaptation step of `normalize_relaxed`
(`try: person_or_org['contact'] = [...] except Exception: pass`); `pm` is
the person/organization dict, already known to be a dict. -/
def contactsUpd (pm : List (String × Val)) : List (String × Val) :=
  let contacts := as_list ((pm.lookup "contact").getD (.vlist []))
  if contacts.isEmpty then pm
  else
    match normContactList contacts with
    | .ok lst => dset pm "contact" (.vlist lst)
    | .error _ => pm

/-- Write an updated `given` dict back through `person.name.given`
(the in-place mutations `gname[...] = ...` seen from the person dict). -/
def givenUpd (pm nm gm : List (String × Val)) : List (String × Val) :=
  dset pm "name" (.vdict (dset nm "given" (.vdict gm)))

/-- The `formatted_initials` sub-step of `normalize_relaxed`. -/
def fiUpd (pm nm gm : List (String × Val)) : List (String × Val) × Option PyErr :=
  let fi := (gm.lookup "formatted_initials").getD .vnone
  if truthy fi then
    match ensure_formatted_string_content fi with
    | .error e => (givenUpd pm nm gm, some e)
    | .ok fi2 => (givenUpd pm nm (dset gm "formatted_initials" fi2), none)
  else (givenUpd pm nm gm, none)

/-- The given-name sub-step of `normalize_relaxed` for a person dict
`pm`: `person.get('name', {}).get('given', None)`, then forenames and
formatted initials through `ensure_formatted_string_content`. -/
def personNames (pm : List (String × Val)) : List (String × Val) × Option PyErr :=
  match (pm.lookup "name").getD (.vdict []) with
  | .vdict nm =>
      let g := (nm.lookup "given").getD .vnone
      if truthy g then
        match g with
        | .vdict gm =>
            let fnames := as_list ((gm.lookup "forename").getD (.vlist []))
            if fnames.isEmpty then fiUpd pm nm gm
            else
              match fnames.mapM ensure_formatted_string_content with
              | .error e => (pm, some e)
              | .ok lst => fiUpd pm nm (dset gm "forename" (.vlist lst))
        | _ => (pm, some .attributeError)
      else (pm, none)
  | _ => (pm, some .attributeError)

/-- The role sub-step of `normalize_relaxed`:
`contributor['role'] = [normalize_role(r) for r in as_list(contributor.get('role', None) or [])]`. -/
def rolesUpd (cm : List (String × Val)) : Val × Option PyErr :=
  let rv := (cm.lookup "role").getD .vnone
  let roles := as_list (if truthy rv then rv else .vlist [])
  if roles.isEmpty then (.vdict cm, none)
  else
    match roles.mapM normalize_role with
    | .ok lst => (.vdict (dset cm "role" (.vlist lst)), none)
    | .error e => (.vdict cm, some e)

/-- One iteration of the contributor loop of `normalize_relaxed`. -/
def normContributor (c : Val) : Val × Option PyErr :=
  match c with
  | .vdict cm =>
      let person := (cm.lookup "person").getD .vnone
      let org := (cm.lookup "organization").getD .vnone
      if truthy person || truthy org then
        let pooKey := if truthy person then "person" else "organization"
        match (if truthy person then person else org) with
        | .vdict pm =>
            let pm1 := contactsUpd pm
            if truthy person then
              match personNames pm1 with
              | (pm2, some e) => (.vdict (dset cm pooKey (.vdict pm2)), some e)
              | (pm2, none) => rolesUpd (dset cm pooKey (.vdict pm2))
            else rolesUpd (dset cm pooKey (.vdict pm1))
        | _ => (c, some .attributeError)
      else rolesUpd cm
  | _ => (c, some .attributeError)

/-- The contributor loop of `normalize_relaxed` over the entry list; on an
exception the already-processed prefix keeps its in-place mutations. -/
def normContribs : List Val → List Val × Option PyErr
  | [] => ([], none)
  | c :: rest =>
      match normContributor c with
      | (c2, some e) => (c2 :: rest, some e)
      | (c2, none) =>
          let (cs, eOpt) := normContribs rest
          (c2 :: cs, eOpt)

/-- The `version` step of `normalize_relaxed` (its guard can never fire:
`normalize_version` is only applied to strings). -/
def stepVersion (m : List (String × Val)) : List (String × Val) :=
  let versions := as_list ((m.lookup "version").getD (.vlist []))
  if versions.isEmpty then m
  else
    match versions.mapM
        (fun item => if isStr item then normalize_version item else .ok item) with
    | .ok lst => dset m "version" (.vlist lst)
    | .error _ => m

/-- The `edition` step of `normalize_relaxed`. -/
def stepEdition (m : List (String × Val)) : List (String × Val) :=
  match (m.lookup "edition").getD .vnone with
  | .vstr s =>
      if s.isEmpty then m else dset m "edition" (.vdict [("content", .vstr s)])
  | _ => m

/-- The `keyword` step of `normalize_relaxed`. -/
def stepKeyword (m : List (String × Val)) : List (String × Val) × Option PyErr :=
  let keywords := (m.lookup "keyword").getD (.vlist [])
  if truthy keywords then
    match pyIter keywords with
    | .error e => (m, some e)
    | .ok items =>
        match items.mapM to_plain_string with
        | .error e => (m, some e)
        | .ok lst => (dset m "keyword" (.vlist lst), none)
  else (m, none)

/-- The `contributor` step of `normalize_relaxed`
(`for contributor in data.get('contributor', []): ...`); a present
non-list value is iterated per Python semantics: strings and dicts yield
strings, whose `.get` raises `AttributeError`; other values are not
iterable and raise `TypeError`. -/
def stepContrib (m : List (String × Val)) : List (String × Val) × Option PyErr :=
  match m.lookup "contributor" with
  | none => (m, none)
  | some (.vlist cs) =>
      match normContribs cs with
      | (cs2, eOpt) => (dset m "contributor" (.vlist cs2), eOpt)
  | some (.vstr s) => if s.isEmpty then (m, none) else (m, some .attributeError)
  | some (.vdict cm) => if cm.isEmpty then (m, none) else (m, some .attributeError)
  | some _ => (m, some .typeError)

/-- A value found by `List.lookup` is structurally smaller than the
association list holding it. -/
theorem sizeOf_lookup {m : List (String × Val)} {k : String} {v : Val}
    (h : m.lookup k = some v) : sizeOf v < sizeOf m := by
  induction m with
  | nil => simp [List.lookup] at h
  | cons p rest ih =>
      obtain ⟨k1, v1⟩ := p
      rw [List.lookup] at h
      cases hkk : (k == k1)
      · rw [hkk] at h
        have := ih h
        simp
        omega
      · rw [hkk] at h
        injection h with h
        subst h
        simp
        omega

mutual

/-- `normalize_relaxed` from `bib_models/util.py`, in state-passing style:
the returned tree is the in-place-mutated record, together with the
exception, if one escaped.  The relation list is read here from the
original mapping: the preceding steps only ever write the keys
`version`, `edition`, `keyword` and `contributor`, so the entry at
`relation` is the same one the source reads from the partially mutated
dict. -/
def normalize_relaxed (data : Val) : Val × Option PyErr :=
  match data with
  | .vdict m =>
      let m1 := stepVersion m
      let m2 := stepEdition m1
      match stepKeyword m2 with
      | (m3, some e) => (.vdict m3, some e)
      | (m3, none) =>
          match stepContrib m3 with
          | (m4, some e) => (.vdict m4, some e)
          | (m4, none) =>
              match hrel : m.lookup "relation" with
              | some (.vlist rs) =>
                  if rs.isEmpty then (.vdict m4, none)
                  else
                    match normRelations rs with
                    | (_, ms, some e) =>
                        (.vdict (dset m4 "relation" (.vlist ms)), some e)
                    | (ns, _, none) =>
                        (.vdict (dset m4 "relation" (.vlist ns)), none)
              | some (.vstr s) =>
                  if s.isEmpty then (.vdict m4, none)
                  else (.vdict m4, some .attributeError)
              | some (.vdict rm) =>
                  if rm.isEmpty then (.vdict m4, none)
                  else (.vdict m4, some .attributeError)
              | some v =>
                  if truthy v then (.vdict m4, some .typeError)
                  else (.vdict m4, none)
              | none => (.vdict m4, none)
  | _ => (data, some .attributeError)
termination_by sizeOf data
decreasing_by
  have h1 := sizeOf_lookup hrel
  simp at h1
  simp
  omega

/-- The relation comprehension of `normalize_relaxed`:
`[dict with bibitem normalized recursively, **r, for entries with a truthy
bibitem]`.  Returns the new entry list, the original list as left behind
by the in-place mutations, and the exception if one escaped.  In the
source the dict display writes the `bibitem` key first and `**r` then
re-points it at the same (already mutated in place) object, so the new
entry holds the normalized bibitem first, followed by the remaining keys
of `r` in order. -/
def normRelations (rels : List Val) : List Val × List Val × Option PyErr :=
  match rels with
  | [] => ([], [], none)
  | r :: rest =>
      match r with
      | .vdict rm =>
          match hb : rm.lookup "bibitem" with
          | some b =>
              if truthy b then
                match normalize_relaxed b with
                | (b2, some e) =>
                    ([], .vdict (dset rm "bibitem" b2) :: rest, some e)
                | (b2, none) =>
                    let entry :=
                      Val.vdict (("bibitem", b2) ::
                        rm.filter (fun p => p.1 ≠ "bibitem"))
                    match normRelations rest with
                    | (ns, ms, eOpt) =>
                        (entry :: ns, .vdict (dset rm "bibitem" b2) :: ms, eOpt)
              else
                match normRelations rest with
                | (ns, ms, eOpt) => (ns, r :: ms, eOpt)
          | none =>
              match normRelations rest with
              | (ns, ms, eOpt) => (ns, r :: ms, eOpt)
      | _ => ([], r :: rest, some .attributeError)
termination_by sizeOf rels
decreasing_by
  all_goals
    first
      | (have h1 := sizeOf_lookup hb; simp <;> omega)
      | (simp <;> omega)

end

/-- Modelled from the spec: the external schema capability used by
`construct_bibitem` (`relaton.models.bibdata.BibliographicItem`, not part
of the sources).  Per spec section 6, `construct` is strict schema
construction, raising a structured validation error (a list of field
error records) on non-conformance, and `construct_unchecked` is the
non-validating fallback (`BibliographicItem.construct`), which accepts
the same fields and never raises. -/
structure Schema where
  construct : Val → Except (List String) Val
  construct_unchecked : Val → Val

/-- `construct_bibitem` from `bib_models/util.py`, parameterized by the
schema capability.  The call to `normalize_relaxed` sits in a
`try/except Exception: pass`, so its in-place mutations are kept even
when it raises; `BibliographicItem(**data)` raises `TypeError` when
`data` is not a mapping (in either mode), and a schema validation
failure propagates in strict mode but is converted to
`(best-effort item, error list)` in non-strict mode. -/
def construct_bibitem (S : Schema) (data : Val) (strict : Bool) :
    Except PyErr (Val × Option (List String)) :=
  let d := (normalize_relaxed data).fst
  match d with
  | .vdict _ =>
      if strict then
        match S.construct d with
        | .ok item => .ok (item, none)
        | .error errs => .error (.validationError errs)
      else
        match S.construct d with
        | .ok item => .ok (item, none)
        | .error errs => .ok (S.construct_unchecked d, some errs)
  | _ => .error .typeError

/-- The `type`/`value` branch of `normalize_contact` falls through to the
address/phone/pass-through checks: either there is no truthy `type` with
a present `value` key, or the `value` is truthy but the `type` is not one
of the four recognized strings. -/
def typeValueFallthrough (m : List (String × Val)) : Bool :=
  let t := (m.lookup "type").getD .vnone
  if truthy t && hasKey m "value" then
    let v := (m.lookup "value").getD .vnone
    truthy v &&
      !(decide (t = Val.vstr "email" ∨ t = Val.vstr "uri" ∨ t = Val.vstr "url" ∨
          t = Val.vstr "phone"))
  else true

/-- Whether `m` has key `k` with a string value
(`k in m and isinstance(m[k], str)`). -/
def hasStrKey (m : List (String × Val)) (k : String) : Bool :=
  match m.lookup k with
  | some (.vstr _) => true
  | _ => false

/-- C4: `ensure_formatted_string_content` does map `ensure({}) = dict with
content set to the empty string` and leaves `content: "Jane"` unchanged, but
on a mapping whose `content` entry is present and falsy it raises
`TypeError` (`dict(content='', **fname)` receives `content` twice) instead
of returning the mapping with `content` injected, contradicting the claim
and the function's own stated purpose. -/
theorem ensure_formatted_string_content_raises_on_falsy_content :
    ensure_formatted_string_content (.vdict []) =
      .ok (.vdict [("content", .vstr "")])
    ∧ ensure_formatted_string_content (.vdict [("content", .vstr "Jane")]) =
      .ok (.vdict [("content", .vstr "Jane")])
    ∧ ensure_formatted_string_content (.vdict [("content", .vstr "")]) =
      .error .typeError := by
  refine ⟨rfl, rfl, rfl⟩

/-- C8: the Role Normalizer, the Formatted-String Coercer and the
Plain-String Extractor are total: on every input value each returns a
result and never raises. -/
theorem field_normalizers_total (v : Val) :
    (∃ a, to_plain_string v = .ok a)
    ∧ (∃ b, normalize_role v = .ok b)
    ∧ (∃ c, to_formatted_string v = .ok c) := by
  refine ⟨?_, ?_, ?_⟩ <;>
    cases v <;>
      simp [to_plain_string, normalize_role, to_formatted_string, pyGet] <;>
        (try split) <;> simp

/-- C5 counterexample: two primary identifiers with `id` and `type`
swapped (`id:"A",type:"B"` vs `id:"B",type:"A"`) differ in both `id` and
`type`, so under the claimed ordered-pair deduplication they would count
as two distinct primaries (dedup count 2, warning fired); the code's
`frozenset([id.id, id.type])` key collapses them to one, so no warning
fires and the first entry is returned. -/
theorem get_primary_docid_swapped_pair_cex :
    primaryFilter ⟨some "A", some "B", none, some true⟩ = true
    ∧ primaryFilter ⟨some "B", some "A", none, some true⟩ = true
    ∧ (some "A" : Option String) ≠ some "B"
    ∧ get_primary_docid
        [⟨some "A", some "B", none, some true⟩,
         ⟨some "B", some "A", none, some true⟩] =
      (false, some ⟨some "A", some "B", none, some true⟩) := by
  refine ⟨rfl, rfl, by decide, by decide⟩

/-- C5 (amended): the filtered primary identifiers are deduplicated by the
unordered pair of their `id` and `type` values: whenever two primary
entries have equal `frozenset`-style keys (in particular two literally
identical entries), the dedup count is 1, no warning fires, and the first
entry is returned. -/
theorem get_primary_docid_unordered_dedup (d d2 : DocID)
    (h1 : primaryFilter d = true) (h2 : primaryFilter d2 = true)
    (h3 : docidKey d = docidKey d2) :
    get_primary_docid [d, d2] = (false, some d) := by
  simp [get_primary_docid, List.filter_cons, h1, h2, h3]

/-- C5 witness: two literally identical primary entries collapse to a
single dedup key; the identifier is returned with no warning. -/
theorem get_primary_docid_unordered_dedup_witness :
    get_primary_docid
      [⟨some "A", some "DOI", none, some true⟩,
       ⟨some "A", some "DOI", none, some true⟩] =
      (false, some ⟨some "A", some "DOI", none, some true⟩) :=
  get_primary_docid_unordered_dedup _ _ rfl rfl rfl

/-- C6: `get_primary_docid` filters to entries with `primary` true, `id`
and `type` present and `scope` absent; it warns exactly when the
deduplicated key count differs from 1; it returns the head of the
non-deduplicated filtered sequence (or none); and on two distinct
primaries (`A`/`DOI` and `B`/`ISBN`) it warns and returns the first. -/
theorem get_primary_docid_spec (ids : List DocID) :
    ((get_primary_docid ids).1 = true ↔
        (((ids.filter primaryFilter).map docidKey).toFinset.card ≠ 1))
    ∧ (get_primary_docid ids).2 = (ids.filter primaryFilter).head?
    ∧ ids.filter primaryFilter = ids.filter (fun d =>
        decide (d.primary = some true ∧ d.id ≠ none ∧ d.type ≠ none ∧
          d.scope = none))
    ∧ get_primary_docid
        [⟨some "A", some "DOI", none, some true⟩,
         ⟨some "B", some "ISBN", none, some true⟩] =
      (true, some ⟨some "A", some "DOI", none, some true⟩) := by
  refine ⟨?_, rfl, ?_, by decide⟩
  · simp [get_primary_docid]
  · apply List.filter_congr
    intro d _
    obtain ⟨i, t, sc, p⟩ := d
    by_cases hp : p = some true <;> by_cases hi : i = none <;>
      by_cases ht2 : t = none <;> by_cases hs : sc = none <;>
        simp [primaryFilter, bne, beq_iff_eq, hp, hi, ht2, hs]

/-- When the `type`/`value` branch of `normalize_contact` falls through,
the result is given by the trailing address/phone/pass-through checks. -/
theorem normalize_contact_dict_fallthrough (m : List (String × Val))
    (hf : typeValueFallthrough m = true) :
    normalize_contact_dict m = contactRest m := by
  unfold typeValueFallthrough at hf
  unfold normalize_contact_dict
  by_cases h1 : (truthy ((List.lookup "type" m).getD .vnone) && hasKey m "value") = true
  · simp only [h1, if_true] at hf ⊢
    obtain ⟨hv, hnp⟩ := Bool.and_eq_true_iff.mp hf
    have hP : ¬((List.lookup "type" m).getD Val.vnone = Val.vstr "email" ∨
        (List.lookup "type" m).getD Val.vnone = Val.vstr "uri" ∨
        (List.lookup "type" m).getD Val.vnone = Val.vstr "url" ∨
        (List.lookup "type" m).getD Val.vnone = Val.vstr "phone") := by
      simpa using hnp
    push_neg at hP
    obtain ⟨hn1, hn2, hn3, hn4⟩ := hP
    rw [if_pos hv, if_neg hn1, if_neg ?_, if_neg hn4]
    rintro (h | h)
    · exact hn2 h
    · exact hn3 h
  · have h2 : (truthy ((List.lookup "type" m).getD .vnone) && hasKey m "value") = false := by
      revert h1
      cases truthy ((List.lookup "type" m).getD .vnone) && hasKey m "value" <;> simp
    simp only [h2]
    simp

/-- C7: `normalize_contact` maps its input by the first matching rule:
truthy `type` of `email`/`uri`/`url`/`phone` with truthy `value` yields
the corresponding variant; truthy `type` with a present falsy `value`
yields no contact; failing those, a `city` or `country` key yields an
address wrapper, then a string-valued `phone` key yields a phone variant;
non-mapping input raises `TypeError`. -/
theorem normalize_contact_rules :
    (∀ (m : List (String × Val)) (v : Val),
        m.lookup "type" = some (.vstr "email") → m.lookup "value" = some v →
        truthy v = true →
        normalize_contact (.vdict m) = .ok (some (.vdict [("email", v)])))
    ∧ (∀ (m : List (String × Val)) (v : Val),
        (m.lookup "type" = some (.vstr "uri") ∨
          m.lookup "type" = some (.vstr "url")) →
        m.lookup "value" = some v → truthy v = true →
        normalize_contact (.vdict m) = .ok (some (.vdict [("uri", v)])))
    ∧ (∀ (m : List (String × Val)) (v : Val),
        m.lookup "type" = some (.vstr "phone") → m.lookup "value" = some v →
        truthy v = true →
        normalize_contact (.vdict m) =
          .ok (some (.vdict [("phone", .vdict [("content", v)])])))
    ∧ (∀ (m : List (String × Val)) (t v : Val),
        m.lookup "type" = some t → truthy t = true →
        m.lookup "value" = some v → truthy v = false →
        normalize_contact (.vdict m) = .ok none)
    ∧ (∀ (m : List (String × Val)),
        typeValueFallthrough m = true →
        (hasKey m "city" = true ∨ hasKey m "country" = true) →
        normalize_contact (.vdict m) = .ok (some (.vdict [("address", .vdict m)])))
    ∧ (∀ (m : List (String × Val)) (s : String),
        typeValueFallthrough m = true →
        hasKey m "city" = false → hasKey m "country" = false →
        m.lookup "phone" = some (.vstr s) →
        normalize_contact (.vdict m) =
          .ok (some (.vdict [("phone", .vdict [("content", .vstr s)])])))
    ∧ (∀ (v : Val), isDict v = false →
        normalize_contact v = .error .typeError) := by
  refine ⟨?_, ?_, ?_, ?_, ?_, ?_, ?_⟩
  · intro m v ht hv htv
    simp +decide [normalize_contact, normalize_contact_dict, hasKey, ht, hv, htv]
  · intro m v ht hv htv
    rcases ht with ht | ht <;>
      simp +decide [normalize_contact, normalize_contact_dict, hasKey, ht, hv, htv]
  · intro m v ht hv htv
    simp +decide [normalize_contact, normalize_contact_dict, hasKey, ht, hv, htv]
  · intro m t v ht htt hv htv
    simp +decide [normalize_contact, normalize_contact_dict, hasKey, ht, hv, htv, htt]
  · intro m hf hck
    simp only [normalize_contact, normalize_contact_dict_fallthrough m hf]
    unfold contactRest
    rcases hck with h | h <;> simp [h]
  · intro m s hf hc hco hp
    simp only [normalize_contact, normalize_contact_dict_fallthrough m hf]
    simp [contactRest, hc, hco, hp]
  · intro v hv
    cases v <;> simp_all [normalize_contact, isDict]

/-- C7 witness: concrete instances of each rule. -/
theorem normalize_contact_rules_witness :
    normalize_contact (.vdict [("type", .vstr "email"), ("value", .vstr "a@b.com")]) =
      .ok (some (.vdict [("email", .vstr "a@b.com")]))
    ∧ normalize_contact (.vdict [("type", .vstr "url"), ("value", .vstr "http://x")]) =
      .ok (some (.vdict [("uri", .vstr "http://x")]))
    ∧ normalize_contact (.vdict [("type", .vstr "phone"), ("value", .vstr "123")]) =
      .ok (some (.vdict [("phone", .vdict [("content", .vstr "123")])]))
    ∧ normalize_contact (.vdict [("type", .vstr "email"), ("value", .vstr "")]) =
      .ok none
    ∧ normalize_contact (.vdict [("city", .vstr "X")]) =
      .ok (some (.vdict [("address", .vdict [("city", .vstr "X")])]))
    ∧ normalize_contact (.vdict [("phone", .vstr "555")]) =
      .ok (some (.vdict [("phone", .vdict [("content", .vstr "555")])]))
    ∧ normalize_contact (.vstr "oops") = .error .typeError :=
  ⟨normalize_contact_rules.1 _ _ rfl rfl rfl,
   normalize_contact_rules.2.1 _ _ (Or.inr rfl) rfl rfl,
   normalize_contact_rules.2.2.1 _ _ rfl rfl rfl,
   normalize_contact_rules.2.2.2.1 _ (.vstr "email") _ rfl rfl rfl rfl,
   normalize_contact_rules.2.2.2.2.1 _ rfl (Or.inl rfl),
   normalize_contact_rules.2.2.2.2.2.1 _ _ rfl rfl rfl rfl,
   normalize_contact_rules.2.2.2.2.2.2 _ rfl⟩

/-- C9: a mapping with a truthy `type` that is none of the four recognized
type strings, a present truthy `value`, no `city` or `country` key, and no
string-valued `phone` key passes through `normalize_contact` unchanged:
not dropped, not converted, no exception. -/
theorem normalize_contact_passthrough (m : List (String × Val)) (t v : Val)
    (ht : m.lookup "type" = some t) (htt : truthy t = true)
    (h1 : t ≠ .vstr "email") (h2 : t ≠ .vstr "uri") (h3 : t ≠ .vstr "url")
    (h4 : t ≠ .vstr "phone")
    (hv : m.lookup "value" = some v) (hvt : truthy v = true)
    (hc : hasKey m "city" = false) (hco : hasKey m "country" = false)
    (hp : hasStrKey m "phone" = false) :
    normalize_contact (.vdict m) = .ok (some (.vdict m)) := by
  have hf : typeValueFallthrough m = true := by
    unfold typeValueFallthrough
    simp [ht, hv, htt, hvt, hasKey, h1, h2, h3, h4]
  simp only [normalize_contact, normalize_contact_dict_fallthrough m hf]
  unfold contactRest
  rw [if_neg ?_]
  · unfold hasStrKey at hp
    match hlp : m.lookup "phone" with
    | some (.vstr s) => rw [hlp] at hp; simp at hp
    | none => simp [hlp]
    | some .vnone => simp [hlp]
    | some (.vbool b) => simp [hlp]
    | some (.vint n) => simp [hlp]
    | some (.vlist xs) => simp [hlp]
    | some (.vdict mm) => simp [hlp]
  · simp [hc, hco]

/-- C9 witness: an unrecognized truthy `type` with a truthy `value` passes
through unchanged. -/
theorem normalize_contact_passthrough_witness :
    normalize_contact (.vdict [("type", .vstr "fax"), ("value", .vstr "1")]) =
      .ok (some (.vdict [("type", .vstr "fax"), ("value", .vstr "1")])) :=
  normalize_contact_passthrough _ (.vstr "fax") (.vstr "1") rfl rfl
    (by decide) (by decide) (by decide) (by decide) rfl rfl rfl rfl rfl

/-- C3: `normalize_relaxed` can raise outside the role step, contradicting
the spec's claim that a role-entry error is the only escape: a contributor
entry that is not a mapping makes the unguarded `contributor.get('person')`
call raise `AttributeError` to the caller; meanwhile `normalize_role` is
total, so a role entry can never be the source of an escaping error. -/
theorem normalize_relaxed_raises_outside_role_step :
    normalize_relaxed (.vdict [("contributor", .vlist [.vstr "x"])]) =
      (.vdict [("contributor", .vlist [.vstr "x"])], some .attributeError)
    ∧ (∀ r : Val, ∃ out, normalize_role r = .ok out) := by
  constructor
  · simp +decide [normalize_relaxed, normRelations, stepVersion, stepEdition, stepKeyword,
      stepContrib, normContribs, normContributor, contactsUpd, personNames, fiUpd, givenUpd,
      rolesUpd, normContactList, normalize_contact, normalize_contact_dict, contactRest,
      ensure_formatted_string_content, normalize_role, normalize_version, to_plain_string,
      pyGet, pyIter, pyStr, pyRepr, truthy, hasKey, dset, as_list, isDict, isStr,
      List.lookup, List.mapM, List.mapM.loop]
  · intro r
    cases r <;> simp [normalize_role] <;> (try split) <;> simp

/-- C2: the Relaxed Canonicalizer is not idempotent: on a record with a
contributor forename `{}` the first `normalize_relaxed` succeeds and
injects `content: ""`, but applying `normalize_relaxed` to its own output
raises `TypeError` (`ensure_formatted_string_content` on the now present
but falsy `content`), instead of reproducing the tree. -/
theorem normalize_relaxed_not_idempotent :
    normalize_relaxed (.vdict [("contributor", .vlist [.vdict [("person",
        .vdict [("name", .vdict [("given",
          .vdict [("forename", .vlist [.vdict []])])])])]])]) =
      (.vdict [("contributor", .vlist [.vdict [("person",
        .vdict [("name", .vdict [("given", .vdict [("forename",
          .vlist [.vdict [("content", .vstr "")]])])])])]])], none)
    ∧ (normalize_relaxed (.vdict [("contributor", .vlist [.vdict [("person",
        .vdict [("name", .vdict [("given", .vdict [("forename",
          .vlist [.vdict [("content", .vstr "")]])])])])]])])).2 =
      some .typeError := by
  constructor <;>
    simp +decide [normalize_relaxed, normRelations, stepVersion, stepEdition, stepKeyword,
      stepContrib, normContribs, normContributor, contactsUpd, personNames, fiUpd, givenUpd,
      rolesUpd, normContactList, normalize_contact, normalize_contact_dict, contactRest,
      ensure_formatted_string_content, normalize_role, normalize_version, to_plain_string,
      pyGet, pyIter, pyStr, pyRepr, truthy, hasKey, dset, as_list, isDict, isStr,
      List.lookup, List.mapM, List.mapM.loop]

/-- On a record whose only key is `relation` (with a non-empty list), the
result of `normalize_relaxed` is determined by `normRelations`. -/
theorem normalize_relaxed_relation_only (rs : List Val) (h : rs ≠ []) :
    normalize_relaxed (.vdict [("relation", .vlist rs)]) =
      (match normRelations rs with
       | (_, ms, some e) => (.vdict [("relation", .vlist ms)], some e)
       | (ns, _, none) => (.vdict [("relation", .vlist ns)], none)) := by
  cases rs with
  | nil => exact absurd rfl h
  | cons a as =>
      rcases hnr : normRelations (a :: as) with ⟨ns, ms, eOpt⟩
      rw [normalize_relaxed]
      simp [stepVersion, stepEdition, stepKeyword, stepContrib, as_list, truthy,
        List.lookup, dset, hnr]
      all_goals cases eOpt <;> simp

/-- C10: in the relation step of `normalize_relaxed`, an entry whose
`bibitem` value is falsy is removed from the new relation sequence exactly
like an entry lacking the key; an entry with a truthy `bibitem` is kept,
with the recursively normalized bibitem and the entry's other keys; and on
a whole record the falsy-`bibitem` and missing-`bibitem` entries disappear
from `relation` while the truthy one is kept and recursed into. -/
theorem normRelations_drops_falsy_bibitem :
    (∀ (rm : List (String × Val)) (rest : List Val) (b : Val),
        rm.lookup "bibitem" = some b → truthy b = false →
        (normRelations (.vdict rm :: rest)).1 = (normRelations rest).1)
    ∧ (∀ (rm : List (String × Val)) (rest : List Val),
        rm.lookup "bibitem" = none →
        (normRelations (.vdict rm :: rest)).1 = (normRelations rest).1)
    ∧ (∀ (rm : List (String × Val)) (rest : List Val) (b b2 : Val),
        rm.lookup "bibitem" = some b → truthy b = true →
        normalize_relaxed b = (b2, none) →
        (normRelations (.vdict rm :: rest)).1 =
          .vdict (("bibitem", b2) :: rm.filter (fun p => p.1 ≠ "bibitem")) ::
            (normRelations rest).1)
    ∧ normalize_relaxed (.vdict [("relation", .vlist
        [.vdict [("bibitem", .vdict [])],
         .vdict [("note", .vstr "n")],
         .vdict [("bibitem", .vdict [("x", .vstr "y")]), ("type", .vstr "t")]])]) =
      (.vdict [("relation", .vlist
        [.vdict [("bibitem", .vdict [("x", .vstr "y")]), ("type", .vstr "t")]])],
       none) := by
  refine ⟨?_, ?_, ?_, ?_⟩
  · intro rm rest b hb ht
    rw [normRelations, hb]
    simp [ht]
    all_goals rcases hrest : normRelations rest with ⟨ns, ms, eOpt⟩
    all_goals simp
  · intro rm rest hb
    rw [normRelations, hb]
    all_goals rcases hrest : normRelations rest with ⟨ns, ms, eOpt⟩
    all_goals simp
  · intro rm rest b b2 hb ht hn
    rw [normRelations, hb]
    simp [ht, hn]
    all_goals rcases hrest : normRelations rest with ⟨ns, ms, eOpt⟩
    all_goals simp
  · have e1 : normalize_relaxed (.vdict [("x", .vstr "y")]) =
        (.vdict [("x", .vstr "y")], none) := by
      rw [normalize_relaxed]
      rfl
    have h3 : normRelations
        [.vdict [("bibitem", .vdict [("x", .vstr "y")]), ("type", .vstr "t")]] =
        ([.vdict [("bibitem", .vdict [("x", .vstr "y")]), ("type", .vstr "t")]],
         [.vdict [("bibitem", .vdict [("x", .vstr "y")]), ("type", .vstr "t")]],
         none) := by
      simp [normRelations, e1, List.lookup, truthy, dset, List.filter]
    have h23 : normRelations
        [.vdict [("note", .vstr "n")],
         .vdict [("bibitem", .vdict [("x", .vstr "y")]), ("type", .vstr "t")]] =
        ([.vdict [("bibitem", .vdict [("x", .vstr "y")]), ("type", .vstr "t")]],
         [.vdict [("note", .vstr "n")],
          .vdict [("bibitem", .vdict [("x", .vstr "y")]), ("type", .vstr "t")]],
         none) := by
      rw [normRelations, h3]
      rfl
    have h123 : normRelations
        [.vdict [("bibitem", .vdict [])],
         .vdict [("note", .vstr "n")],
         .vdict [("bibitem", .vdict [("x", .vstr "y")]), ("type", .vstr "t")]] =
        ([.vdict [("bibitem", .vdict [("x", .vstr "y")]), ("type", .vstr "t")]],
         [.vdict [("bibitem", .vdict [])],
          .vdict [("note", .vstr "n")],
          .vdict [("bibitem", .vdict [("x", .vstr "y")]), ("type", .vstr "t")]],
         none) := by
      rw [normRelations, h23]
      rfl
    rw [normalize_relaxed_relation_only _ (by simp), h123]

/-- C10 witness: a one-entry relation list whose `bibitem` is `None`
contributes nothing to the new relation sequence. -/
theorem normRelations_drops_falsy_bibitem_witness :
    (normRelations [.vdict [("bibitem", .vnone)]]).1 = (normRelations []).1 :=
  normRelations_drops_falsy_bibitem.1 [("bibitem", .vnone)] [] .vnone rfl rfl

/-- `normalize_relaxed` always leaves a mapping as a (possibly mutated)
mapping, whether or not an exception escaped. -/
theorem normalize_relaxed_dict_state (m : List (String × Val)) :
    ∃ m2, (normalize_relaxed (.vdict m)).1 = .vdict m2 := by
  simp only [normalize_relaxed]
  repeat' split
  all_goals exact ⟨_, rfl⟩

/-- C1: for a mapping whose canonicalized state the strict schema
constructor rejects, `construct_bibitem` in strict mode raises that
validation error, while in non-strict mode it returns a best-effort item
(from the unchecked constructor) together with the non-none error list;
and in non-strict mode `construct_bibitem` never raises a schema
validation error for any schema capability and any input. -/
theorem construct_bibitem_strict_propagation (S : Schema)
    (m : List (String × Val)) (errs : List String)
    (h : S.construct (normalize_relaxed (.vdict m)).1 = .error errs) :
    construct_bibitem S (.vdict m) true = .error (.validationError errs)
    ∧ (∃ item, construct_bibitem S (.vdict m) false = .ok (item, some errs))
    ∧ ∀ (T : Schema) (d : Val) (e : List String),
        construct_bibitem T d false ≠ .error (.validationError e) := by
  obtain ⟨m2, hm2⟩ := normalize_relaxed_dict_state m
  refine ⟨?_, ?_, ?_⟩
  · unfold construct_bibitem
    rw [hm2]
    rw [hm2] at h
    simp [h]
  · unfold construct_bibitem
    rw [hm2]
    rw [hm2] at h
    simp [h]
  · intro T d e
    unfold construct_bibitem
    match (normalize_relaxed d).1 with
    | .vdict md =>
        simp only [if_neg]
        match T.construct (.vdict md) with
        | .ok item => simp
        | .error es => simp
    | .vnone => simp
    | .vbool b => simp
    | .vint n => simp
    | .vstr s => simp
    | .vlist xs => simp

/-- C1 witness: with a schema capability that rejects everything with a
one-error list, strict construction raises the validation error and
non-strict construction returns the unchecked item and the error list. -/
theorem construct_bibitem_strict_propagation_witness :
    construct_bibitem ⟨fun _ => .error ["err"], fun v => v⟩ (.vdict []) true =
      .error (.validationError ["err"])
    ∧ (∃ item, construct_bibitem ⟨fun _ => .error ["err"], fun v => v⟩
        (.vdict []) false = .ok (item, some ["err"])) :=
  ⟨(construct_bibitem_strict_propagation ⟨fun _ => .error ["err"], fun v => v⟩
      [] ["err"] rfl).1,
   (construct_bibitem_strict_propagation ⟨fun _ => .error ["err"], fun v => v⟩
      [] ["err"] rfl).2.1⟩
